import Mathlib

/-!
Shallow embedding of the bid-info-downloader pipeline (TypeScript sources under
src/), together with theorems settling the frozen claims about it.

Conventions of the embedding:
* JS strings become Lean `String` / `List Char`; epoch-millisecond timestamps
  become `Int`; optional fields become `Option`.
* Async code is embedded by making the external completion events explicit
  parameters (an environment record of oracles), and fallible code returns
  `Except`.
* Filesystem state is a listing of entries (name, directory flag, contained
  file names, modification time); `fs.existsSync(path.join(dir, f))` is
  membership of `f` in the entry's file list.
-/

namespace BidInfo

/-- JavaScript whitespace class `\s` (ECMA-262 WhiteSpace + LineTerminator). -/
def isJsWs (c : Char) : Bool :=
  c == ' ' || c == '\t' || c == '\n' || c == '\r' ||
  c == '\x0b' || c == '\x0c' || c == '\u00a0' || c == '\u1680' ||
  (0x2000 ≤ c.val && c.val ≤ 0x200a) || c == '\u2028' || c == '\u2029' ||
  c == '\u202f' || c == '\u205f' || c == '\u3000' || c == '\ufeff'

/-- `src/utils/helpers.ts` `formatFileName`, first step:
`.replace(/[\r\n|\n|\r]/g, '')`.  The character class is the set
`{'\r', '\n', '|'}` (the pipes are literal members), removed globally. -/
def removeLineBreaks (cs : List Char) : List Char :=
  cs.filter (fun c => !(c == '\r' || c == '\n' || c == '|'))

/-- Second step: `.replace(/^\s*?(\S.*\S)\s.*?$/, '$1')`.
The anchored pattern matches the whole string when it has the shape
`ws* (\S ... \S) ws anything`; the capture starts at the first
non-whitespace character `i` and, because `.*` inside the capture is greedy,
ends at the largest `j ≥ i+1` whose character is non-whitespace and is
followed by a whitespace character.  When no such `j` exists the pattern
fails and the string is unchanged.  (Line terminators were removed by the
previous step, so `.` matching is unrestricted here.) -/
def trimOuterText (cs : List Char) : List Char :=
  let i := cs.findIdx (fun c => !isJsWs c)
  let cands := (List.range cs.length).filter (fun j =>
    decide (i + 1 ≤ j) && decide (j + 1 < cs.length) &&
    !isJsWs (cs.getD j ' ') && isJsWs (cs.getD (j + 1) 'x'))
  match cands.getLast? with
  | some j => (cs.drop i).take (j - i + 1)
  | none => cs

/-- Third step: `.replace(/(?<=\S) (?=\S)/, '+')` (non-global): the first
literal space whose neighbours are both non-whitespace becomes `'+'`. -/
def plusInternalSpace (cs : List Char) : List Char :=
  match (List.range cs.length).find? (fun k =>
      cs.getD k 'x' == ' ' && decide (1 ≤ k) &&
      !isJsWs (cs.getD (k - 1) ' ') &&
      decide (k + 1 < cs.length) && !isJsWs (cs.getD (k + 1) ' ')) with
  | some k => cs.set k '+'
  | none => cs

/-- `src/utils/helpers.ts` `formatFileName`: the three `replace` steps in
source order.  `BrowserService.getAvailablePdfs` applies the identical chain
inline when building candidate names. -/
def formatFileName (fileName : String) : String :=
  (plusInternalSpace (trimOuterText (removeLineBreaks fileName.toList))).asString

/-- `src/types/index.ts` `Contract`. -/
structure Contract where
  contractId : String
  contractName : String
  linkArg : String
  releaseDate : String
  isNew : Bool
  sectionName : String
deriving Repr, DecidableEq

/-- `src/types/index.ts` `PdfFile`. -/
structure PdfFile where
  fileName : String
  href : String
  enableDownload : Bool
deriving Repr, DecidableEq

/-- `src/types/index.ts` `DownloadFiles`. -/
structure DownloadFiles where
  downloaded : List String
  notDownloaded : List String
deriving Repr, DecidableEq

/-- `src/types/index.ts` `UploadStatus`. -/
inductive UploadStatus where
  | pending
  | success
  | failed
deriving Repr, DecidableEq

/-- `src/types/index.ts` `UploadResult`. -/
structure UploadResult where
  fileName : String
  fileId : Option String
  status : UploadStatus
  error : Option String
deriving Repr, DecidableEq

/-- `src/types/index.ts` `DownloadResult` (one ledger row of
`downloadHistory.json`).  `uploaded` is the optional field set by
`HistoryManager.addUploadResults`; `downloadedAt` is the optional
timestamp read by `FileManager.cleanupOldData` (epoch milliseconds;
absent or empty values are `none`). -/
structure DownloadResult where
  contractId : String
  contractName : String
  sectionName : String
  downloaded : List String
  notDownloaded : List String
  uploaded : Option (List UploadResult) := none
  downloadedAt : Option Int := none
deriving Repr, DecidableEq

/-- `src/types/index.ts` `FailedDownload`. -/
structure FailedDownload where
  contractId : String
  contractName : String
  sectionName : String
  fileName : String
deriving Repr, DecidableEq

/-!  ## Top-page connectivity check

`BrowserService.navigateToTopPage` (src/services/browserService.ts, lines
50-76) returns the OBJECT `{success, isServiceStopped}` in every case —
on a thrown `goto`, on a non-ok response, and on success.  The caller in
`runDownloader` (src/index.ts, lines 105-110) tests the returned value with
`if (!topPageSuccess)`.  To settle what that test does we embed JavaScript
truthiness for the value actually returned.  -/

/-- Return value of `BrowserService.navigateToTopPage`. -/
structure TopPageResult where
  success : Bool
  isServiceStopped : Bool
deriving Repr, DecidableEq

/-- A JavaScript value as tested by `if (!x)`: either a boolean or the
result object.  (The older revision in the repo returned a boolean; the
current `browserService.ts` returns the object.) -/
inductive JsVal where
  | bool : Bool → JsVal
  | obj : TopPageResult → JsVal
deriving Repr, DecidableEq

/-- JavaScript truthiness: a boolean is its own truth value; any object is
truthy. -/
def jsTruthy : JsVal → Bool
  | .bool b => b
  | .obj _ => true

/-- Environment of `navigateToTopPage`: whether `page.goto` threw, whether
the response was ok, and whether the loaded page shows the maintenance
banner `サービス停止中`. -/
structure TopPageEnv where
  gotoThrows : Bool
  responseOk : Bool
  pageShowsStopped : Bool
deriving Repr, DecidableEq

/-- `BrowserService.navigateToTopPage` (src/services/browserService.ts,
lines 50-76): on a thrown navigation it returns
`{success: false, isServiceStopped: false}`; on a non-ok response the same;
on an ok response it returns `{success: true, isServiceStopped}`. -/
def navigateToTopPage (env : TopPageEnv) : TopPageResult :=
  if env.gotoThrows then ⟨false, false⟩
  else if env.responseOk then ⟨true, env.pageShowsStopped⟩
  else ⟨false, false⟩

/-!  ## Sync Driver filtering (src/index.ts, `runDownloader`)  -/

/-- `HistoryManager.getDownloadedContractIds`
(src/services/historyManager.ts): `history.map(item => item.contractId)`. -/
def getDownloadedContractIds (history : List DownloadResult) : List String :=
  history.map (fun item => item.contractId)

/-- The contract filter of `runDownloader` (src/index.ts, lines 119-129):
optionally keep only `isNew` contracts, then drop every contract whose
`contractId` is already in the loaded history. -/
def runFilter (downloadOnlyNew : Bool) (history : List DownloadResult)
    (contracts : List Contract) : List Contract :=
  (if downloadOnlyNew then contracts.filter (fun c => c.isNew) else contracts).filter
    (fun c => !((getDownloadedContractIds history).contains c.contractId))

/-- The list of contracts `runDownloader` actually processes in one run:
the early return `if (!topPageSuccess) return;` (src/index.ts, lines
106-110) yields no processing when the tested value is falsy; otherwise
the filtered contract list is iterated.  The argument is the JavaScript
value bound to `topPageSuccess`. -/
def runProcessedContracts (topPageValue : JsVal) (downloadOnlyNew : Bool)
    (history : List DownloadResult) (contracts : List Contract) :
    List Contract :=
  if jsTruthy topPageValue = false then []
  else runFilter downloadOnlyNew history contracts

/-- The ledger row appended by `runDownloader` for a processed contract
(src/index.ts, lines 188-197), given the per-contract download outcome. -/
def downloadRow (outcome : Contract → DownloadFiles) (c : Contract) :
    DownloadResult :=
  { contractId := c.contractId
    contractName := c.contractName
    sectionName := c.sectionName
    downloaded := (outcome c).downloaded
    notDownloaded := (outcome c).notDownloaded }

/-- The in-memory ledger after one run (it is the ledger `saveHistory`
rewrites): the loaded history with one `addToHistory` push per processed
contract, in processing order. -/
def runHistoryAfter (downloadOnlyNew : Bool) (history : List DownloadResult)
    (contracts : List Contract) (outcome : Contract → DownloadFiles) :
    List DownloadResult :=
  history ++ (runFilter downloadOnlyNew history contracts).map (downloadRow outcome)

/-!  ## Download Orchestrator (src/services/downloaderService.ts)

`downloadPdfs` triggers one download per eligible candidate (serially, with
an inter-click delay) and races all the per-item completion promises
against one shared batch timeout.  Each `downloadSinglePdf` pushes the
download event file name (`download.suggestedFilename()`) onto `downloaded`
when it runs to completion; its own failures are caught, so an item that
fails or is still pending when the race settles simply never pushes.
The batch timeout rejection is caught and logged; the function then
returns the lists accumulated so far.

The embedding makes the asynchronous outcomes explicit oracles keyed by
the candidate href:
* `selectorFound h`: `frame.waitForSelector` for the link succeeded
  (a failure there is thrown out of `downloadPdfs`);
* `resolvedBeforeDeadline h`: the item promise settled before the batch
  race did (by completing or by its internal catch);
* `confirmedBeforeDeadline h`: the item ran to completion (saved its file
  and pushed a name) before the race settled — this implies
  `resolvedBeforeDeadline h` in any real execution;
* `suggestedName h`: the file name reported by the download event.

Completion order is scheduler-dependent, so the embedding records the
confirmed names in trigger order; every claim proved about `downloaded`
is insensitive to the order of its entries. -/

structure DlEnv where
  selectorFound : String → Bool
  resolvedBeforeDeadline : String → Bool
  confirmedBeforeDeadline : String → Bool
  suggestedName : String → String

/-- `DownloaderService.downloadPdfs` (src/services/downloaderService.ts,
lines 33-100).  The result pairs the returned `DownloadFiles` with the
observable batch-timeout flag (`true` exactly when the `Promise.race`
rejection was caught and logged as `ダウンロードタイムアウトまたはエラー`).
An uncaught `waitForSelector` failure propagates as `Except.error`. -/
def downloadPdfs (env : DlEnv) (pdfs : List PdfFile) :
    Except String (DownloadFiles × Bool) :=
  let downloadTargets := pdfs.filter (fun pdf => pdf.enableDownload)
  if downloadTargets.length = 0 then
    .ok (⟨[], (pdfs.filter (fun pdf => !pdf.enableDownload)).map
            (fun pdf => pdf.fileName)⟩, false)
  else if downloadTargets.all (fun pdf => env.selectorFound pdf.href) then
    let downloaded :=
      (pdfs.filter (fun pdf =>
          pdf.enableDownload && env.confirmedBeforeDeadline pdf.href)).map
        (fun pdf => env.suggestedName pdf.href)
    let notDownloaded :=
      (pdfs.filter (fun pdf => !pdf.enableDownload)).map
        (fun pdf => pdf.fileName)
    let timedOut :=
      !(downloadTargets.all (fun pdf => env.resolvedBeforeDeadline pdf.href))
    .ok (⟨downloaded, notDownloaded⟩, timedOut)
  else
    .error "waitForSelector failed"

/-- Follows the words of the partition claim (not the source): every
candidate file name appears in exactly one of the two lists, and the two
lists are disjoint. -/
def claimedPartition (pdfs : List PdfFile) (files : DownloadFiles) : Bool :=
  pdfs.all (fun pdf =>
      xor (files.downloaded.contains pdf.fileName)
        (files.notDownloaded.contains pdf.fileName)) &&
  files.downloaded.all (fun n => !(files.notDownloaded.contains n))

/-!  ## FileManager (src/services/fileManager.ts) -/

/-- One entry of the `data` directory listing: its name, whether
`statSync(...).isDirectory()`, the names of the files it contains, and its
modification time in epoch milliseconds. -/
structure FsEntry where
  name : String
  isDir : Bool
  files : List String
  mtimeMs : Int
deriving Repr, DecidableEq

/-- `files.filter(file => fs.statSync(path.join(dataPath, file)).isDirectory())`. -/
def dirListOf (entries : List FsEntry) : List FsEntry :=
  entries.filter (fun e => e.isDir)

/-- JavaScript `dirName.startsWith(contractId)`. -/
def strStartsWith (s pre : String) : Bool :=
  pre.toList.isPrefixOf s.toList

/-- The `FailedDownload` entries one ledger row contributes in
`FileManager.checkDownloadedFiles`: when no directory name starts with the
row contract id the row is skipped with a log line; otherwise every
name in `downloaded` missing from the located folder is reported. -/
def rowFailures (entries : List FsEntry) (contract : DownloadResult) :
    List FailedDownload :=
  match (dirListOf entries).find?
      (fun d => strStartsWith d.name contract.contractId) with
  | none => []
  | some dir =>
      (contract.downloaded.filter (fun fn => !(dir.files.contains fn))).map
        (fun fn => ⟨contract.contractId, contract.contractName,
                    contract.sectionName, fn⟩)

/-- `FileManager.checkDownloadedFiles` (fileManager.ts, lines 53-84):
iterate the history rows in order, accumulating each row's failure
entries. -/
def checkDownloadedFiles (entries : List FsEntry)
    (downloadHistory : List DownloadResult) : List FailedDownload :=
  downloadHistory.flatMap (rowFailures entries)

/-- The cutoff instant of `FileManager.cleanupOldData`:
`now.getTime() - retentionDays * 24 * 60 * 60 * 1000`. -/
def retentionCutoff (nowMs retentionDays : Int) : Int :=
  nowMs - retentionDays * 24 * 60 * 60 * 1000

/-- JavaScript `dirName.split('_')[0]`: the prefix before the first
underscore (the whole name when there is none). -/
def dirContractId (dirName : String) : String :=
  (dirName.toList.takeWhile (fun c => c != '_')).asString

/-- The per-folder deletion decision in the loop of
`FileManager.cleanupOldData` (fileManager.ts, lines 128-157): when the
history has a row for the folder contract id carrying a (truthy)
`downloadedAt`, delete iff `downloadDate < cutoffDate`; otherwise fall back
to the folder modification time, delete iff `stats.mtime < cutoffDate`.
Both comparisons are strict. -/
def cleanupDeletes (history : List DownloadResult) (cutoffMs : Int)
    (dir : FsEntry) : Bool :=
  match history.find? (fun item => item.contractId == dirContractId dir.name) with
  | some item =>
      match item.downloadedAt with
      | some t => decide (t < cutoffMs)
      | none => decide (dir.mtimeMs < cutoffMs)
  | none => decide (dir.mtimeMs < cutoffMs)

/-- `FileManager.cleanupOldData` (fileManager.ts, lines 99-165), returning
the names of the folders it deletes: nothing when the cleanup config is
disabled, otherwise every listed directory whose decision is to delete. -/
def cleanupOldData (enabled : Bool) (retentionDays nowMs : Int)
    (history : List DownloadResult) (entries : List FsEntry) : List String :=
  if !enabled then []
  else
    ((dirListOf entries).filter
        (cleanupDeletes history (retentionCutoff nowMs retentionDays))).map
      (fun e => e.name)

/-!  ## HistoryManager.addUploadResults (src/services/historyManager.ts) -/

/-- `HistoryManager.addUploadResults` (historyManager.ts, lines 64-72):
`this.history.find(item => item.contractId === contractId)` locates the
first matching row and sets its `uploaded` field; when there is none the
call only logs. -/
def addUploadResults (contractId : String) (uploadResults : List UploadResult) :
    List DownloadResult → List DownloadResult
  | [] => []
  | row :: rest =>
      if row.contractId == contractId then
        { row with uploaded := some uploadResults } :: rest
      else
        row :: addUploadResults contractId uploadResults rest

/-!  ## GoogleDriveService.writeContractToSheet (src/services/googleDriveService.ts) -/

/-- `src/types/index.ts` `ContractDetails`.  Every field is an optional
string in the source; `writeContractToSheet` reads each through `|| ''`,
and the key check `if (!contractId)` treats `undefined` and `''` alike,
so the embedding uses `String` with `""` standing for an absent value.
The source field names are Japanese and not valid Lean identifiers; the
mapping is: fiscalYear=年度, projectName=業務名,
contractManagementNumber=契約管理番号 (the upsert key), biddingMethod=入札方式,
industry=業種, workLocation=業務場所, workDescription=業務内容,
publicationDate=公開日, participationStart=参加受付開始,
participationDeadline=参加受付期限, bidDeadline=入札締切日時,
bidOpeningDate=開札日, plannedPrice=予定価格, orderGrade=発注等級,
wtoType=WTO条件付一般競争入札方式の型, remarks=備考, sectionOffice=課所名,
noticeDocuments=公告資料. -/
structure ContractDetails where
  fiscalYear : String := ""
  projectName : String := ""
  contractManagementNumber : String := ""
  biddingMethod : String := ""
  industry : String := ""
  workLocation : String := ""
  workDescription : String := ""
  publicationDate : String := ""
  participationStart : String := ""
  participationDeadline : String := ""
  bidDeadline : String := ""
  bidOpeningDate : String := ""
  plannedPrice : String := ""
  orderGrade : String := ""
  wtoType : String := ""
  remarks : String := ""
  sectionOffice : String := ""
  noticeDocuments : String := ""
deriving Repr, DecidableEq

/-- The `rowData` array built in `writeContractToSheet`
(googleDriveService.ts, lines 231-251): 19 columns A..S, with the project
name written twice (columns B and C, as in the source) and the key
`契約管理番号` in column D (index 3). -/
def toRowData (cd : ContractDetails) : List String :=
  [cd.fiscalYear, cd.projectName, cd.projectName, cd.contractManagementNumber,
   cd.biddingMethod, cd.industry, cd.workLocation, cd.workDescription,
   cd.publicationDate, cd.participationStart, cd.participationDeadline,
   cd.bidDeadline, cd.bidOpeningDate, cd.plannedPrice, cd.orderGrade,
   cd.wtoType, cd.remarks, cd.sectionOffice, cd.noticeDocuments]

/-- `GoogleDriveService.writeContractToSheet` (googleDriveService.ts, lines
224-298) acting on the sheet rows fetched by `getSheetData`: a falsy key
skips the write and returns `false`; otherwise
`findIndex(row => row[3] === contractId)` picks the first row whose column
D equals the key; a hit is updated in place over `A..S` of that row, a
miss appends one row.  (A row shorter than four cells yields `undefined`
at index 3, which never equals the non-empty key; the embedding reads the
cell with default `""`.) -/
def writeContractToSheet (sheet : List (List String))
    (contractDetails : ContractDetails) : Bool × List (List String) :=
  let rowData := toRowData contractDetails
  let contractId := contractDetails.contractManagementNumber
  if contractId == "" then (false, sheet)
  else
    match sheet.findIdx? (fun row => row.getD 3 "" == contractId) with
    | some duplicateRow => (true, sheet.set duplicateRow rowData)
    | none => (true, sheet ++ [rowData])

/-!  ## Shared lemmas  -/

/-- Whatever `trimOuterText` keeps was present in its input. -/
theorem mem_of_mem_trimOuterText {a : Char} {cs : List Char}
    (h : a ∈ trimOuterText cs) : a ∈ cs := by
  simp only [trimOuterText] at h
  split at h
  · exact (cs.drop_sublist _).subset ((List.take_sublist _ _).subset h)
  · exact h

/-- Whatever `plusInternalSpace` produces was present in its input or is
the inserted `'+'`. -/
theorem mem_of_mem_plusInternalSpace {a : Char} {cs : List Char}
    (h : a ∈ plusInternalSpace cs) : a ∈ cs ∨ a = '+' := by
  simp only [plusInternalSpace] at h
  split at h
  · exact List.mem_or_eq_of_mem_set h
  · exact Or.inl h

/-!  ## Claim theorems  -/

/-- A character removed by the first step never reappears later in the
chain. -/
theorem removed_char_not_mem_formatFileName (c : Char) (s : String)
    (hc : (c == '\r' || c == '\n' || c == '|') = true) :
    c ∉ (formatFileName s).toList := by
  intro h
  rw [formatFileName, List.toList_asString] at h
  rcases mem_of_mem_plusInternalSpace h with h | h
  · have h2 := List.of_mem_filter (mem_of_mem_trimOuterText h)
    rw [hc] at h2
    simp at h2
  · rw [h] at hc
    simp at hc

/-- C5: filename normalization is the deterministic three-step function
`formatFileName`; on the raw text `"資料 A\n "` it removes the line break,
trims the surrounding whitespace, and turns the single internal space into
`'+'`, returning exactly `"資料+A"`; and its output never contains a line
break, for any input. -/
theorem formatFileName_normalizes :
    formatFileName "資料 A\n " = "資料+A" ∧
    ∀ s : String,
      ((formatFileName s).toList.contains '\n'
        || (formatFileName s).toList.contains '\r') = false := by
  refine ⟨by decide, fun s => ?_⟩
  have h1 := removed_char_not_mem_formatFileName '\n' s (by decide)
  have h2 := removed_char_not_mem_formatFileName '\r' s (by decide)
  rw [String.toList] at h1 h2
  simp [List.elem_eq_mem, h1, h2]

/-- C4: idempotent resume.  First conjunct: every contract surviving
`runFilter` has a `contractId` outside the loaded history, so a contract
already recorded is filtered out before any processing.  Second and third
conjuncts: running the driver a second time over identical source data
processes no entity and appends zero ledger rows. -/
theorem runDownloader_idempotent (downloadOnlyNew : Bool)
    (history : List DownloadResult) (contracts : List Contract)
    (outcome outcome2 : Contract → DownloadFiles) :
    (runFilter downloadOnlyNew history contracts).all
        (fun c => !((getDownloadedContractIds history).contains c.contractId))
      = true ∧
    runFilter downloadOnlyNew
        (runHistoryAfter downloadOnlyNew history contracts outcome) contracts
      = [] ∧
    runHistoryAfter downloadOnlyNew
        (runHistoryAfter downloadOnlyNew history contracts outcome) contracts
        outcome2
      = runHistoryAfter downloadOnlyNew history contracts outcome := by
  have hfilter : runFilter downloadOnlyNew
      (runHistoryAfter downloadOnlyNew history contracts outcome) contracts
      = [] := by
    rw [runFilter, List.filter_eq_nil_iff]
    intro c hc
    suffices h2 : c.contractId ∈ getDownloadedContractIds
        (runHistoryAfter downloadOnlyNew history contracts outcome) by
      simp [List.elem_eq_mem, h2]
    simp only [getDownloadedContractIds, runHistoryAfter, List.map_append,
      List.map_map, List.mem_append]
    by_cases hseen : c.contractId ∈ history.map (fun item => item.contractId)
    · exact Or.inl hseen
    · refine Or.inr ?_
      have hmem : c ∈ runFilter downloadOnlyNew history contracts := by
        rw [runFilter]
        refine List.mem_filter.mpr ⟨hc, ?_⟩
        simp [getDownloadedContractIds, List.elem_eq_mem, hseen]
      exact List.mem_map.mpr ⟨c, hmem, by simp [downloadRow, Function.comp]⟩
  refine ⟨?_, hfilter, ?_⟩
  · rw [List.all_eq_true]
    intro c hc
    rw [runFilter] at hc
    have h2 := List.mem_filter.mp hc
    simpa using h2.2
  · rw [runHistoryAfter, hfilter]
    simp

/-- C2 counterexample: one eligible candidate `a.pdf` whose download is
not confirmed before the batch deadline ends up in NEITHER list: the
returned row has `downloaded = []` and `notDownloaded = []`, so the union
of the two lists does not cover the candidate set. -/
theorem downloadPdfs_partition_cex :
    downloadPdfs ⟨fun _ => true, fun _ => false, fun _ => false, fun h => h⟩
        [⟨"a.pdf", "h1", true⟩] = .ok (⟨[], []⟩, true) ∧
    claimedPartition [⟨"a.pdf", "h1", true⟩] ⟨[], []⟩ = false := by
  exact ⟨rfl, rfl⟩

/-- C2 amended: `notDownloaded` is exactly the ineligible candidates, and
`downloaded` is exactly the recorded names of the eligible candidates
confirmed complete before the batch deadline; hence when every eligible
candidate is confirmed in time and recorded under its candidate file name,
and candidate names are distinct, the two lists are disjoint and their
union is the candidate set.  Eligible candidates not confirmed in time
appear in neither list. -/
theorem downloadPdfs_partition (env : DlEnv) (pdfs : List PdfFile)
    (hsel : ∀ p ∈ pdfs, p.enableDownload = true → env.selectorFound p.href = true)
    (hconf : ∀ p ∈ pdfs, p.enableDownload = true →
      env.confirmedBeforeDeadline p.href = true)
    (hname : ∀ p ∈ pdfs, p.enableDownload = true →
      env.suggestedName p.href = p.fileName)
    (hnodup : (pdfs.map (fun p => p.fileName)).Nodup) :
    downloadPdfs env pdfs =
      .ok (⟨(pdfs.filter (fun p => p.enableDownload)).map (fun p => p.fileName),
            (pdfs.filter (fun p => !p.enableDownload)).map (fun p => p.fileName)⟩,
           !((pdfs.filter (fun p => p.enableDownload)).all
              (fun p => env.resolvedBeforeDeadline p.href))) ∧
    claimedPartition pdfs
        ⟨(pdfs.filter (fun p => p.enableDownload)).map (fun p => p.fileName),
         (pdfs.filter (fun p => !p.enableDownload)).map (fun p => p.fileName)⟩
      = true := by
  have hinj := List.inj_on_of_nodup_map hnodup
  constructor
  · have hfc : pdfs.filter
        (fun p => p.enableDownload && env.confirmedBeforeDeadline p.href)
        = pdfs.filter (fun p => p.enableDownload) := by
      apply List.filter_congr
      intro p hp
      cases he : p.enableDownload with
      | false => simp [he]
      | true => simp [he, hconf p hp he]
    rw [downloadPdfs]
    by_cases hz : (pdfs.filter (fun p => p.enableDownload)).length = 0
    · have hnil : pdfs.filter (fun p => p.enableDownload) = [] :=
        List.length_eq_zero.mp hz
      simp [hz, hnil]
    · have hselAll : (pdfs.filter (fun p => p.enableDownload)).all
          (fun p => env.selectorFound p.href) = true := by
        rw [List.all_eq_true]
        intro p hp
        have hm := List.mem_filter.mp hp
        exact hsel p hm.1 hm.2
      have hmapn : (pdfs.filter (fun p => p.enableDownload)).map
          (fun p => env.suggestedName p.href)
          = (pdfs.filter (fun p => p.enableDownload)).map (fun p => p.fileName) := by
        apply List.map_congr_left
        intro p hp
        have hm := List.mem_filter.mp hp
        exact hname p hm.1 hm.2
      simp [hz, hselAll, hfc, hmapn]
  · rw [claimedPartition, Bool.and_eq_true, List.all_eq_true, List.all_eq_true]
    constructor
    · intro p hp
      cases he : p.enableDownload with
      | true =>
        have hin : p.fileName ∈ (pdfs.filter (fun q => q.enableDownload)).map
            (fun q => q.fileName) :=
          List.mem_map.mpr ⟨p, List.mem_filter.mpr ⟨hp, he⟩, rfl⟩
        have hout : p.fileName ∉ (pdfs.filter (fun q => !q.enableDownload)).map
            (fun q => q.fileName) := by
          intro hmem
          rcases List.mem_map.mp hmem with ⟨q, hqf, hqe⟩
          have hq := List.mem_filter.mp hqf
          have heq : q = p := hinj hq.1 hp hqe
          rw [heq] at hq
          simp [he] at hq
        simp [List.elem_eq_mem, hin, hout]
      | false =>
        have hin : p.fileName ∈ (pdfs.filter (fun q => !q.enableDownload)).map
            (fun q => q.fileName) :=
          List.mem_map.mpr ⟨p, List.mem_filter.mpr ⟨hp, by simp [he]⟩, rfl⟩
        have hout : p.fileName ∉ (pdfs.filter (fun q => q.enableDownload)).map
            (fun q => q.fileName) := by
          intro hmem
          rcases List.mem_map.mp hmem with ⟨q, hqf, hqe⟩
          have hq := List.mem_filter.mp hqf
          have heq : q = p := hinj hq.1 hp hqe
          rw [heq] at hq
          rw [he] at hq
          exact Bool.false_ne_true hq.2
        simp [List.elem_eq_mem, hin, hout]
    · intro n hn
      rcases List.mem_map.mp hn with ⟨p, hpf, rfl⟩
      have hp := List.mem_filter.mp hpf
      have hout : p.fileName ∉ (pdfs.filter (fun q => !q.enableDownload)).map
          (fun q => q.fileName) := by
        intro hmem
        rcases List.mem_map.mp hmem with ⟨q, hqf, hqe⟩
        have hq := List.mem_filter.mp hqf
        have heq : q = p := hinj hq.1 hp.1 hqe
        rw [heq] at hq
        rw [hp.2] at hq
        exact Bool.false_ne_true hq.2
      simp [List.elem_eq_mem, hout]

/-- C2 witness: one eligible candidate confirmed in time and saved under
its own name plus one ineligible candidate; the two lists partition the
candidate set. -/
theorem downloadPdfs_partition_witness :
    downloadPdfs ⟨fun _ => true, fun _ => true, fun _ => true, fun _ => "f1.pdf"⟩
        [⟨"f1.pdf", "h1", true⟩, ⟨"f2.pdf", "h2", false⟩]
      = .ok (⟨["f1.pdf"], ["f2.pdf"]⟩, false) ∧
    claimedPartition [⟨"f1.pdf", "h1", true⟩, ⟨"f2.pdf", "h2", false⟩]
        ⟨["f1.pdf"], ["f2.pdf"]⟩ = true := by
  have h := downloadPdfs_partition
    ⟨fun _ => true, fun _ => true, fun _ => true, fun _ => "f1.pdf"⟩
    [⟨"f1.pdf", "h1", true⟩, ⟨"f2.pdf", "h2", false⟩]
    (by decide) (by decide) (by decide) (by decide)
  exact h

/-- C3: with three eligible candidates where the first two are confirmed
complete before the shared batch deadline and the third is not,
`downloadPdfs` still RETURNS (`.ok`, the caught timeout reported only via
the logged batch-failure flag `true`) and `downloaded` holds exactly the
two completed entries; the pending third is in neither list. -/
theorem downloadPdfs_batch_timeout_partial (env : DlEnv) (p1 p2 p3 : PdfFile)
    (he1 : p1.enableDownload = true) (he2 : p2.enableDownload = true)
    (he3 : p3.enableDownload = true)
    (hs1 : env.selectorFound p1.href = true)
    (hs2 : env.selectorFound p2.href = true)
    (hs3 : env.selectorFound p3.href = true)
    (hc1 : env.confirmedBeforeDeadline p1.href = true)
    (hc2 : env.confirmedBeforeDeadline p2.href = true)
    (hc3 : env.confirmedBeforeDeadline p3.href = false)
    (hr3 : env.resolvedBeforeDeadline p3.href = false) :
    downloadPdfs env [p1, p2, p3] =
      .ok (⟨[env.suggestedName p1.href, env.suggestedName p2.href], []⟩, true) ∧
    [env.suggestedName p1.href, env.suggestedName p2.href].length = 2 := by
  refine ⟨?_, rfl⟩
  rw [downloadPdfs]
  simp [he1, he2, he3, hs1, hs2, hs3, hc1, hc2, hc3, hr3]

/-- C3 witness: a concrete three-candidate batch with the third item
missing the deadline. -/
theorem downloadPdfs_batch_timeout_partial_witness :
    downloadPdfs
        ⟨fun _ => true, fun h => !(h == "h3"), fun h => !(h == "h3"), fun h => h⟩
        [⟨"a", "h1", true⟩, ⟨"b", "h2", true⟩, ⟨"c", "h3", true⟩]
      = .ok (⟨["h1", "h2"], []⟩, true) := by
  have h := downloadPdfs_batch_timeout_partial
    ⟨fun _ => true, fun h => !(h == "h3"), fun h => !(h == "h3"), fun h => h⟩
    ⟨"a", "h1", true⟩ ⟨"b", "h2", true⟩ ⟨"c", "h3", true⟩
    rfl rfl rfl rfl rfl rfl (by decide) (by decide) (by decide) (by decide)
  exact h.1

/-- Every failure entry a row contributes carries that row's contract id. -/
theorem contractId_of_mem_rowFailures {entries : List FsEntry}
    {r : DownloadResult} {f : FailedDownload} (h : f ∈ rowFailures entries r) :
    f.contractId = r.contractId := by
  simp only [rowFailures] at h
  split at h
  · exact absurd h (List.not_mem_nil f)
  · rcases List.mem_map.mp h with ⟨fn, hfn, rfl⟩
    rfl

/-- C6: reconciliation detects drift.  For a history holding one row whose
`downloaded` list is `["a.pdf"]`, when the directory listing locates a
folder for the row's contract id but that folder has no file `a.pdf`,
`checkDownloadedFiles` returns exactly one `FailedDownload` carrying the
row's contractId, contractName, sectionName and the file name. -/
theorem checkDownloadedFiles_detects_missing (entries : List FsEntry)
    (cid cname sname : String) (nd : List String) (dir : FsEntry)
    (hfind : (dirListOf entries).find? (fun d => strStartsWith d.name cid)
      = some dir)
    (hmiss : dir.files.contains "a.pdf" = false) :
    checkDownloadedFiles entries
        [{ contractId := cid, contractName := cname, sectionName := sname,
           downloaded := ["a.pdf"], notDownloaded := nd }]
      = [⟨cid, cname, sname, "a.pdf"⟩] := by
  have hm2 : "a.pdf" ∉ dir.files := by simpa [List.elem_eq_mem] using hmiss
  simp [checkDownloadedFiles, rowFailures, hfind, hm2]

/-- C6 witness: a concrete listing with the folder `123_工事A_本庁` present
and empty. -/
theorem checkDownloadedFiles_detects_missing_witness :
    checkDownloadedFiles [⟨"123_工事A_本庁", true, [], 0⟩]
        [{ contractId := "123", contractName := "工事A", sectionName := "本庁",
           downloaded := ["a.pdf"], notDownloaded := [] }]
      = [⟨"123", "工事A", "本庁", "a.pdf"⟩] :=
  checkDownloadedFiles_detects_missing [⟨"123_工事A_本庁", true, [], 0⟩]
    "123" "工事A" "本庁" [] ⟨"123_工事A_本庁", true, [], 0⟩ (by decide) (by decide)

/-- C10: a history row whose contract id has no matching folder in the
data directory contributes no `FailedDownload` entry at all — whatever its
`downloaded` list claims, the reconciliation result holds no entry with
that contract id. -/
theorem checkDownloadedFiles_missing_folder_skipped (entries : List FsEntry)
    (history : List DownloadResult) (cid : String)
    (hnone : ∀ e ∈ dirListOf entries, strStartsWith e.name cid = false) :
    (checkDownloadedFiles entries history).filter
        (fun f => f.contractId == cid) = [] := by
  induction history with
  | nil => simp [checkDownloadedFiles]
  | cons r rest ih =>
      rw [checkDownloadedFiles, List.flatMap_cons, List.filter_append]
      rw [checkDownloadedFiles] at ih
      rw [ih, List.append_nil]
      rw [List.filter_eq_nil_iff]
      intro f hf
      by_cases hcid : r.contractId = cid
      · have hfnone : (dirListOf entries).find?
            (fun d => strStartsWith d.name r.contractId) = none := by
          rw [List.find?_eq_none]
          intro d hd
          rw [hcid]
          simp [hnone d hd]
        rw [rowFailures, hfnone] at hf
        exact absurd hf (List.not_mem_nil f)
      · have := contractId_of_mem_rowFailures hf
        simp [this, hcid]

/-- C10 witness: one row claiming two downloaded files, an empty directory
listing: no drift entry is produced for its contract id. -/
theorem checkDownloadedFiles_missing_folder_skipped_witness :
    (checkDownloadedFiles []
        [{ contractId := "999", contractName := "工事B", sectionName := "支部",
           downloaded := ["x.pdf", "y.pdf"], notDownloaded := [] }]).filter
        (fun f => f.contractId == "999") = [] :=
  checkDownloadedFiles_missing_folder_skipped [] _ "999" (by decide)

/-- C7: the pruning cutoff is strictly exclusive, on the ledger timestamp
when the folder's row carries one and on the folder modification time
otherwise: a timestamp equal to `now - retentionDays` days is kept, one
millisecond older is deleted. -/
theorem cleanupOldData_cutoff_exclusive (nowMs retentionDays : Int)
    (history : List DownloadResult) (item : DownloadResult) (dir : FsEntry) :
    (history.find? (fun r => r.contractId == dirContractId dir.name) = some item →
      item.downloadedAt = some (retentionCutoff nowMs retentionDays) →
      cleanupDeletes history (retentionCutoff nowMs retentionDays) dir = false) ∧
    (history.find? (fun r => r.contractId == dirContractId dir.name) = some item →
      item.downloadedAt = some (retentionCutoff nowMs retentionDays - 1) →
      cleanupDeletes history (retentionCutoff nowMs retentionDays) dir = true) ∧
    (history.find? (fun r => r.contractId == dirContractId dir.name) = some item →
      item.downloadedAt = none →
      (dir.mtimeMs = retentionCutoff nowMs retentionDays →
        cleanupDeletes history (retentionCutoff nowMs retentionDays) dir = false) ∧
      (dir.mtimeMs = retentionCutoff nowMs retentionDays - 1 →
        cleanupDeletes history (retentionCutoff nowMs retentionDays) dir = true)) ∧
    (history.find? (fun r => r.contractId == dirContractId dir.name) = none →
      (dir.mtimeMs = retentionCutoff nowMs retentionDays →
        cleanupDeletes history (retentionCutoff nowMs retentionDays) dir = false) ∧
      (dir.mtimeMs = retentionCutoff nowMs retentionDays - 1 →
        cleanupDeletes history (retentionCutoff nowMs retentionDays) dir = true)) := by
  refine ⟨fun hf ht => ?_, fun hf ht => ?_,
    fun hf ht => ⟨fun hm => ?_, fun hm => ?_⟩, fun hf => ⟨fun hm => ?_, fun hm => ?_⟩⟩
  · simp only [cleanupDeletes, hf, ht, decide_eq_false_iff_not]
    omega
  · simp only [cleanupDeletes, hf, ht, decide_eq_true_eq]
    omega
  · simp only [cleanupDeletes, hf, ht, hm, decide_eq_false_iff_not]
    omega
  · simp only [cleanupDeletes, hf, ht, hm, decide_eq_true_eq]
    omega
  · simp only [cleanupDeletes, hf, hm, decide_eq_false_iff_not]
    omega
  · simp only [cleanupDeletes, hf, hm, decide_eq_true_eq]
    omega

/-- C7 witness: with `retentionDays = 1` and `now` at epoch ms 86401000 the
cutoff is 1000; a row stamped exactly 1000 is kept, one stamped 999 is
deleted. -/
theorem cleanupOldData_cutoff_exclusive_witness :
    cleanupDeletes
        [{ contractId := "123", contractName := "工事A", sectionName := "本庁",
           downloaded := [], notDownloaded := [], downloadedAt := some 1000 }]
        (retentionCutoff 86401000 1) ⟨"123_工事A_本庁", true, [], 0⟩ = false ∧
    cleanupDeletes
        [{ contractId := "123", contractName := "工事A", sectionName := "本庁",
           downloaded := [], notDownloaded := [], downloadedAt := some 999 }]
        (retentionCutoff 86401000 1) ⟨"123_工事A_本庁", true, [], 0⟩ = true := by
  constructor
  · exact (cleanupOldData_cutoff_exclusive 86401000 1
      [{ contractId := "123", contractName := "工事A", sectionName := "本庁",
         downloaded := [], notDownloaded := [], downloadedAt := some 1000 }]
      { contractId := "123", contractName := "工事A", sectionName := "本庁",
        downloaded := [], notDownloaded := [], downloadedAt := some 1000 }
      ⟨"123_工事A_本庁", true, [], 0⟩).1 (by decide) (by decide)
  · exact (cleanupOldData_cutoff_exclusive 86401000 1
      [{ contractId := "123", contractName := "工事A", sectionName := "本庁",
         downloaded := [], notDownloaded := [], downloadedAt := some 999 }]
      { contractId := "123", contractName := "工事A", sectionName := "本庁",
        downloaded := [], notDownloaded := [], downloadedAt := some 999 }
      ⟨"123_工事A_本庁", true, [], 0⟩).2.1 (by decide) (by decide)

/-- C8: `writeContractToSheet` has upsert-by-key semantics on column D
(index 3): a contract without a key is never written; when the first row
whose column D equals the key exists at index `i`, that row is replaced in
place and the sheet keeps its length (no append); otherwise exactly one
row is appended. -/
theorem writeContractToSheet_upsert (sheet : List (List String))
    (cd : ContractDetails) :
    (cd.contractManagementNumber = "" →
      writeContractToSheet sheet cd = (false, sheet)) ∧
    (∀ i, cd.contractManagementNumber ≠ "" →
      sheet.findIdx? (fun row => row.getD 3 "" == cd.contractManagementNumber)
        = some i →
      writeContractToSheet sheet cd = (true, sheet.set i (toRowData cd)) ∧
      (sheet.set i (toRowData cd)).length = sheet.length) ∧
    (cd.contractManagementNumber ≠ "" →
      sheet.findIdx? (fun row => row.getD 3 "" == cd.contractManagementNumber)
        = none →
      writeContractToSheet sheet cd = (true, sheet ++ [toRowData cd]) ∧
      (sheet ++ [toRowData cd]).length = sheet.length + 1) := by
  refine ⟨fun hkey => ?_, fun i hkey hfind => ⟨?_, by simp⟩,
    fun hkey hfind => ⟨?_, by simp⟩⟩
  · simp [writeContractToSheet, hkey]
  · have hfind2 : sheet.findIdx?
        (fun row => row[3]?.getD "" == cd.contractManagementNumber) = some i := by
      simpa using hfind
    simp [writeContractToSheet, hkey, hfind2]
  · have hfind2 : sheet.findIdx?
        (fun row => row[3]?.getD "" == cd.contractManagementNumber) = none := by
      simpa using hfind
    simp [writeContractToSheet, hkey, hfind2]

/-- C8 witness: updating the one matching row in place, appending when the
key is absent, and skipping a contract without a key. -/
theorem writeContractToSheet_upsert_witness :
    writeContractToSheet [["a", "b", "c", "K1"]]
        { contractManagementNumber := "K1", projectName := "W" }
      = (true, [toRowData { contractManagementNumber := "K1", projectName := "W" }]) ∧
    writeContractToSheet [["a", "b", "c", "K2"]]
        { contractManagementNumber := "K1", projectName := "W" }
      = (true, [["a", "b", "c", "K2"],
          toRowData { contractManagementNumber := "K1", projectName := "W" }]) ∧
    writeContractToSheet [["a", "b", "c", "K1"]] { projectName := "W" }
      = (false, [["a", "b", "c", "K1"]]) := by
  refine ⟨?_, ?_, ?_⟩
  · exact ((writeContractToSheet_upsert [["a", "b", "c", "K1"]]
      { contractManagementNumber := "K1", projectName := "W" }).2.1 0
      (by decide) (by decide)).1
  · exact ((writeContractToSheet_upsert [["a", "b", "c", "K2"]]
      { contractManagementNumber := "K1", projectName := "W" }).2.2
      (by decide) (by decide)).1
  · exact (writeContractToSheet_upsert [["a", "b", "c", "K1"]]
      { projectName := "W" }).1 rfl

/-- C9: `addUploadResults` keeps the history length, is the identity when
no row carries the contract id, and when the first matching row sits at
index `i` it replaces exactly that row by the same row with only the
`uploaded` field set — every other row is untouched. -/
theorem addUploadResults_frame (contractId : String)
    (results : List UploadResult) (history : List DownloadResult) :
    (addUploadResults contractId results history).length = history.length ∧
    ((∀ r ∈ history, ¬ r.contractId = contractId) →
      addUploadResults contractId results history = history) ∧
    (∀ i row, history.findIdx? (fun r => r.contractId == contractId) = some i →
      history[i]? = some row →
      addUploadResults contractId results history
        = history.set i { row with uploaded := some results }) := by
  induction history with
  | nil =>
      refine ⟨rfl, fun _ => rfl, fun i row hfind _ => ?_⟩
      simp [List.findIdx?_nil] at hfind
  | cons r rest ih =>
      refine ⟨?_, fun hnone => ?_, fun i row hfind hget => ?_⟩
      · by_cases hr : r.contractId == contractId
        · simp [addUploadResults, hr]
        · simp only [addUploadResults, hr]
          simp [ih.1]
      · have hr : (r.contractId == contractId) = false := by
          simp [hnone r (List.mem_cons_self r rest)]
        simp only [addUploadResults, hr]
        rw [ih.2.1 (fun x hx => hnone x (List.mem_cons_of_mem r hx))]
        simp
      · rw [List.findIdx?_cons] at hfind
        by_cases hr : (r.contractId == contractId) = true
        · rw [if_pos hr] at hfind
          cases hfind
          simp only [List.getElem?_cons_zero, Option.some.injEq] at hget
          cases hget
          simp [addUploadResults, hr]
        · rw [if_neg hr, List.findIdx?_succ] at hfind
          rcases Option.map_eq_some'.mp hfind with ⟨j, hj, rfl⟩
          simp only [List.getElem?_cons_succ] at hget
          simp only [addUploadResults, Bool.not_eq_true] at hr ⊢
          rw [hr]
          simp only [Bool.false_eq_true, if_false, List.set_cons_succ]
          rw [ih.2.2 j row hj hget]

/-- C9 witness: updating the second of two rows sets only its `uploaded`
field and leaves the first row intact; a contract id absent from the
history leaves it unchanged. -/
theorem addUploadResults_frame_witness :
    addUploadResults "123" [⟨"a.pdf", some "id1", .success, none⟩]
        [{ contractId := "000", contractName := "X", sectionName := "S",
           downloaded := [], notDownloaded := [] },
         { contractId := "123", contractName := "Y", sectionName := "T",
           downloaded := ["a.pdf"], notDownloaded := [] }]
      = [{ contractId := "000", contractName := "X", sectionName := "S",
           downloaded := [], notDownloaded := [] },
         { contractId := "123", contractName := "Y", sectionName := "T",
           downloaded := ["a.pdf"], notDownloaded := [],
           uploaded := some [⟨"a.pdf", some "id1", .success, none⟩] }] ∧
    addUploadResults "999" [⟨"a.pdf", some "id1", .success, none⟩]
        [{ contractId := "000", contractName := "X", sectionName := "S",
           downloaded := [], notDownloaded := [] }]
      = [{ contractId := "000", contractName := "X", sectionName := "S",
           downloaded := [], notDownloaded := [] }] := by
  constructor
  · exact (addUploadResults_frame "123" [⟨"a.pdf", some "id1", .success, none⟩]
      [{ contractId := "000", contractName := "X", sectionName := "S",
         downloaded := [], notDownloaded := [] },
       { contractId := "123", contractName := "Y", sectionName := "T",
         downloaded := ["a.pdf"], notDownloaded := [] }]).2.2 1
      { contractId := "123", contractName := "Y", sectionName := "T",
        downloaded := ["a.pdf"], notDownloaded := [] } (by decide) (by decide)
  · exact (addUploadResults_frame "999" [⟨"a.pdf", some "id1", .success, none⟩]
      [{ contractId := "000", contractName := "X", sectionName := "S",
         downloaded := [], notDownloaded := [] }]).2.1 (by decide)

/-- C1: the claim fails on the code.  `navigateToTopPage` reports failure
(`success = false`, here because `page.goto` threw), yet `runDownloader`
tests the returned OBJECT with `if (!topPageSuccess)`; a JavaScript object
is always truthy, so the early return is dead code and entity processing
still occurs: with an empty history and one listed contract, that contract
is processed despite the failed connectivity check. -/
theorem topPageGuard_dead_processes_despite_failure :
    (navigateToTopPage ⟨true, false, false⟩).success = false ∧
    jsTruthy (JsVal.obj (navigateToTopPage ⟨true, false, false⟩)) = true ∧
    runProcessedContracts (JsVal.obj (navigateToTopPage ⟨true, false, false⟩))
        false [] [⟨"12345", "工事A", "link0", "2026-01-01", true, "本庁"⟩] =
      [⟨"12345", "工事A", "link0", "2026-01-01", true, "本庁"⟩] := by
  refine ⟨rfl, rfl, by decide⟩

end BidInfo
